import Mathlib

/-!
Verification of the SQLTalkAI conversational database assistant
(`src/app.py`) against its natural-language specification.

The repository's own code under `src/` is a Streamlit host: it builds the
database connection (read-only SQLite via URI, or Postgres/MySQL engines),
instantiates the SQL agent, and runs the chat turn handler with its
try/except and chat-history state.  The agent core itself (SQL execution
tool, schema introspector, reasoning-action loop, formatter) is not under
`src/`; `init_sql_agent` only wires it up.  Those parts are therefore
modelled from the spec (sections 3, 4.1-4.3, 8), each such definition
carrying a doc comment starting `Modelled from the spec:`.  Everything
taken from `src/app.py` is embedded directly from the source.
-/

namespace SQLTalkAI

/-! ## SQL write-statement classification

Modelled from the spec (section 8): a SQL string is classified as a write
operation by keyword prefix INSERT/UPDATE/DELETE/DROP/ALTER/CREATE,
case-insensitively, after stripping leading whitespace and comments. -/

/-- Drop characters up to and including the next newline (end of a `--`
line comment). -/
def dropLineComment : List Char → List Char
  | [] => []
  | c :: rest => if c = '\n' then rest else dropLineComment rest

/-- Drop characters up to and including the next closing `*/` of a block
comment. -/
def dropBlockComment : List Char → List Char
  | [] => []
  | '*' :: '/' :: rest => rest
  | _ :: rest => dropBlockComment rest

/-- Modelled from the spec: strip leading whitespace, `--` line comments and
block comments from the front of a SQL string.  Fuel-indexed so the
recursion is structural; every step consumes at least one character, so
fuel equal to the length suffices. -/
def stripWsCommentsFuel : Nat → List Char → List Char
  | 0, cs => cs
  | fuel + 1, cs =>
    match cs with
    | [] => []
    | '-' :: '-' :: rest => stripWsCommentsFuel fuel (dropLineComment rest)
    | '/' :: '*' :: rest => stripWsCommentsFuel fuel (dropBlockComment rest)
    | c :: rest =>
      if c.isWhitespace then stripWsCommentsFuel fuel rest else c :: rest

/-- Strip leading whitespace and comments from a SQL string. -/
def stripWsComments (s : String) : List Char :=
  stripWsCommentsFuel s.toList.length s.toList

/-- The leading keyword of a SQL string: the maximal run of letters after
stripping leading whitespace and comments, upper-cased. -/
def leadingKeyword (s : String) : String :=
  String.mk (((stripWsComments s).takeWhile Char.isAlpha).map Char.toUpper)

/-- The write-operation keywords rejected by the SQL execution tool. -/
def writeKeywords : List String :=
  ["INSERT", "UPDATE", "DELETE", "DROP", "ALTER", "CREATE"]

/-- Modelled from the spec: a SQL string is a write operation iff its
leading keyword (case-insensitive, after stripping leading whitespace and
comments) is one of INSERT/UPDATE/DELETE/DROP/ALTER/CREATE. -/
def isWriteStatement (s : String) : Bool :=
  writeKeywords.contains (leadingKeyword s)

/-! ## ExecutionResult and the SQL Execution Tool

Modelled from the spec (sections 3, 4.2). -/

/-- A row is an ordered sequence of column values, serialized as strings. -/
abbrev Row := List String

/-- Modelled from the spec: `ExecutionResult` is a tagged union of `Rows`
(with an explicit truncation marker) and `Error(message)`. -/
inductive ExecutionResult where
  | Rows (rows : List Row) (truncated : Bool)
  | Error (message : String)
deriving DecidableEq, Repr

/-- The behaviour of the database backend on one statement: either it
returns rows or it raises an exception with a message (syntax error,
permission error, timeout ...). -/
inductive BackendBehavior where
  | ok (rows : List Row)
  | raises (message : String)
deriving DecidableEq, Repr

/-- Outcome of one call to the SQL execution tool, instrumented with
whether the statement actually reached the database backend. -/
structure ExecOutcome where
  result : ExecutionResult
  backendInvoked : Bool
deriving DecidableEq, Repr

/-- Modelled from the spec: `execute(connection, sql)` rejects statements
classified as write operations before execution, returning
`Error("write operations are not permitted")`; otherwise it runs the
statement on the backend, catching any backend exception as
`Error(message)`, and applies the row-count cap with an explicit
truncation marker.  It never raises: every outcome is returned as data. -/
def execute (backend : BackendBehavior) (rowCap : Nat) (sql : String) :
    ExecOutcome :=
  if isWriteStatement sql then
    { result := .Error "write operations are not permitted"
      backendInvoked := false }
  else
    match backend with
    | .ok rows =>
        { result := .Rows (rows.take rowCap) (decide (rowCap < rows.length))
          backendInvoked := true }
    | .raises msg =>
        { result := .Error msg, backendInvoked := true }

/-! ## Agent controller: scratchpad, model outputs, the reasoning loop

Modelled from the spec (sections 3, 4.3, 6). -/

/-- Modelled from the spec: the non-final action kinds the controller can
dispatch.  `Finish` is represented by `ModelOutput.final` below. -/
inductive ActionKind where
  | QuerySQL
  | ListTables
  | DescribeTable
deriving DecidableEq, Repr

/-- Modelled from the spec: one scratchpad step
`{thought, action, action_input, observation}`.  The extra `executed`
field instruments the embedding with whether the observation came from an
actual tool dispatch (`true`) or from an injected corrective observation
(`false`); the spec phrases this as the tool "not being re-executed". -/
structure ScratchpadStep where
  thought : String
  action : ActionKind
  action_input : String
  observation : String
  executed : Bool
deriving DecidableEq, Repr

/-- Modelled from the spec: a parsed model completion — either a
`(thought, action, action_input)` triple, a `(thought, final_answer)`
pair, or a parse failure. -/
inductive ModelOutput where
  | act (thought : String) (action : ActionKind) (action_input : String)
  | final (thought : String) (answer : String)
  | malformed (raw : String)

/-- Modelled from the spec: the distinct reason codes for an aborted
turn. -/
inductive AbortReason where
  | MalformedOutput
  | StepLimitExceeded
  | TimeLimitExceeded
deriving DecidableEq, Repr

/-- Modelled from the spec: terminal status of a turn. -/
inductive TurnStatus where
  | Completed
  | Aborted (reason : AbortReason)
  | Failed (reason : String)
deriving DecidableEq, Repr

/-- Modelled from the spec: the `AgentTurn` record returned to the host. -/
structure AgentTurn where
  user_input : String
  scratchpad : List ScratchpadStep
  final_answer : Option String
  status : TurnStatus
deriving DecidableEq, Repr

/-- The corrective observation injected when the model repeats the
identical (action, action_input) pair twice in a row. -/
def correctiveObservation : String :=
  "repeated action; try a different approach"

/-- Modelled from the spec: the scratchpad step appended for a well-formed
non-final action.  When the action and its input are identical to the
immediately preceding step's, the corrective observation is injected and
the tool is not dispatched; otherwise the action is dispatched and its
observation recorded. -/
def nextStep (dispatch : ActionKind → String → String)
    (sp : List ScratchpadStep) (thought : String) (a : ActionKind)
    (inp : String) : ScratchpadStep :=
  match sp.getLast? with
  | some prev =>
      if prev.action == a && prev.action_input == inp then
        ⟨thought, a, inp, correctiveObservation, false⟩
      else
        ⟨thought, a, inp, dispatch a inp, true⟩
  | none => ⟨thought, a, inp, dispatch a inp, true⟩

/-- Modelled from the spec: the body of the reasoning-action loop.  The
model oracle maps the scratchpad so far to a parsed completion; `dispatch`
routes an action to the schema introspector or the SQL execution tool and
yields the observation text.  A parse failure is retried once and aborts
the turn on the second consecutive failure; a well-formed non-final action
when the step count has reached `step_limit` aborts with
`StepLimitExceeded`; an action identical to the immediately preceding step
gets the corrective observation injected instead of a tool dispatch (and
still counts toward the step cap).  Fuel-indexed for structural recursion;
each iteration either appends a step or raises the malformed streak. -/
def runLoop (model : List ScratchpadStep → ModelOutput)
    (dispatch : ActionKind → String → String)
    (step_limit : Nat) (user_input : String) :
    Nat → List ScratchpadStep → Nat → AgentTurn
  | 0, sp, _ =>
      ⟨user_input, sp, none, .Aborted .StepLimitExceeded⟩
  | fuel + 1, sp, badStreak =>
    match model sp with
    | .final _ answer => ⟨user_input, sp, some answer, .Completed⟩
    | .malformed _ =>
        if badStreak ≥ 1 then ⟨user_input, sp, none, .Aborted .MalformedOutput⟩
        else runLoop model dispatch step_limit user_input fuel sp 1
    | .act thought a inp =>
        if sp.length ≥ step_limit then
          ⟨user_input, sp, none, .Aborted .StepLimitExceeded⟩
        else
          runLoop model dispatch step_limit user_input fuel
            (sp ++ [nextStep dispatch sp thought a inp]) 0

/-- Modelled from the spec: `submit_turn` — the public surface of the
core.  A model that is unavailable at setup time fails the turn with
`Failed("model unavailable")`; otherwise the reasoning loop runs with
enough fuel for `step_limit` appended steps plus one parse retry each and
the terminal check. -/
def submit_turn (model : Option (List ScratchpadStep → ModelOutput))
    (dispatch : ActionKind → String → String)
    (step_limit : Nat) (user_input : String) : AgentTurn :=
  match model with
  | none => ⟨user_input, [], none, .Failed "model unavailable"⟩
  | some m =>
      runLoop m dispatch step_limit user_input (2 * step_limit + 2) [] 0

/-! ## Host layer: chat turn handler and chat history

Embedded from `src/app.py` lines 187-214. -/

/-- A chat message, as the dicts `{"role": ..., "content": ...}` in
`st.session_state.chat_history`. -/
structure Msg where
  role : String
  content : String
deriving DecidableEq, Repr

/-- The greeting seeding the chat history (`src/app.py` line 188). -/
def initialHistory : List Msg :=
  [⟨"assistant", "Hi! Ask me anything about your database."⟩]

/-- The history installed by the Clear Conversation button
(`src/app.py` line 213). -/
def clearedHistory : List Msg :=
  [⟨"assistant", "History cleared. How can I help you now?"⟩]

/-- What the host displays inside the assistant chat message for a turn:
either the agent's reply or the error box from the except-branch. -/
inductive HostView where
  | reply (text : String)
  | errorBox (text : String)
deriving DecidableEq, Repr

/-- The chat turn handler (`src/app.py` lines 197-209): append the user
message, run the agent inside try/except; on success append the assistant
reply and display it, on any exception display the error message and
append nothing further.  The agent call's outcome is `Except String
String`: `.ok reply` for a normal return, `.error exc` for a raised
exception. -/
def handle_turn (history : List Msg) (prompt : String)
    (outcome : Except String String) : List Msg × HostView :=
  let history := history ++ [⟨"user", prompt⟩]
  match outcome with
  | .ok reply => (history ++ [⟨"assistant", reply⟩], .reply reply)
  | .error exc =>
      (history, .errorBox ("Something went wrong while processing your query: " ++ exc))

/-- The user-visible events that touch the chat history
(`src/app.py` lines 187-214): a chat turn with some agent outcome, or the
Clear Conversation button. -/
inductive ChatEvent where
  | turn (prompt : String) (outcome : Except String String)
  | clear

/-- One step of the host's chat-history state. -/
def chatStep (history : List Msg) : ChatEvent → List Msg
  | .turn prompt outcome => (handle_turn history prompt outcome).1
  | .clear => clearedHistory

/-- The chat history after a sequence of events, starting from the
initialization at `src/app.py` line 188. -/
def chatHistoryAfter (events : List ChatEvent) : List Msg :=
  events.foldl chatStep initialHistory

/-! ## Schema introspector

The introspector itself is not under `src/`; `show_schema_preview`
(`src/app.py` lines 131-141) shows its intended use, sorting the table
names it returns.  Modelled from the spec (sections 3, 4.1). -/

/-- A column definition `(name, type, nullable)`. -/
structure ColumnDef where
  name : String
  ty : String
  nullable : Bool
deriving DecidableEq, Repr

/-- Modelled from the spec: `TableDescriptor { name, columns }`. -/
structure TableDescriptor where
  name : String
  columns : List ColumnDef
deriving DecidableEq, Repr

/-- The catalog state of the connected database: the tables it holds, in
catalog order. -/
abbrev DBState := List TableDescriptor

/-- Lexically sort a list of strings, matching the `sorted(list(tables))`
call in `show_schema_preview`. -/
def sortStrings (l : List String) : List String :=
  l.insertionSort (· ≤ ·)

/-- Modelled from the spec: `list_tables(connection)` enumerates the
accessible table names in a stable lexical order.  State-passing style
makes the (absence of) mutation of the database state explicit. -/
def list_tables (db : DBState) : List String × DBState :=
  (sortStrings (db.map TableDescriptor.name), db)

/-- Modelled from the spec: `describe_table(connection, name)` returns the
table's descriptor, or nothing when the name is unknown (the `NotFound`
failure), again passing the database state through explicitly. -/
def describe_table (db : DBState) (tableName : String) :
    Option TableDescriptor × DBState :=
  (db.find? (fun t => t.name == tableName), db)

/-! ## Read-only SQLite connection

Embedded from `build_sqlite_db` (`src/app.py` lines 41-53); the effect of
SQLite's `mode=ro` open flag on write statements is modelled from the
spec's read-only semantics. -/

/-- The connection URI built by `_creator` inside `build_sqlite_db`:
`f"file:{db_path}?mode=ro"`. -/
def sqlite_uri (db_path : String) : String :=
  "file:" ++ db_path ++ "?mode=ro"

/-- A SQLite connection handle: the resolved path and whether the
connection was opened read-only. -/
structure SQLiteConn where
  path : String
  read_only : Bool
deriving DecidableEq, Repr

/-- The query string of a SQLite URI: everything after the first `?`
(none when there is no `?`), per SQLite's URI-filename grammar. -/
def afterFirstQmark : List Char → Option (List Char)
  | [] => none
  | c :: rest => if c = '?' then some rest else afterFirstQmark rest

/-- Split a query string on `&` into its parameters. -/
def splitOnAmp : List Char → List (List Char)
  | [] => [[]]
  | c :: rest =>
    match splitOnAmp rest with
    | [] => [[]]
    | g :: gs => if c = '&' then [] :: g :: gs else (c :: g) :: gs

/-- Whether a SQLite URI carries the `mode=ro` query flag: its query
string, split on `&`, contains the parameter `mode=ro`. -/
def uriHasModeRo (uri : String) : Bool :=
  match afterFirstQmark uri.toList with
  | none => false
  | some q => (splitOnAmp q).contains "mode=ro".toList

/-- Opening a SQLite connection from a URI (`sqlite3.connect(uri,
uri=True)`): the connection is read-only exactly when the URI carries
`mode=ro`. -/
def sqlite_connect (uri : String) : SQLiteConn :=
  ⟨(uri.splitOn "?").headD uri, uriHasModeRo uri⟩

/-- The `_creator` closure of `build_sqlite_db`: connect to
`file:{db_path}?mode=ro` as a URI. -/
def sqlite_creator (db_path : String) : SQLiteConn :=
  sqlite_connect (sqlite_uri db_path)

/-- The abstract contents of the database file on disk. -/
abbrev DBFile := List String

/-- Modelled from the spec: SQLite statement execution against the file.
On a read-only connection every write statement fails with SQLite's
readonly-database error and the file is untouched; on a writable
connection a write statement changes the file; read statements never
change the file. -/
def sqliteExec (conn : SQLiteConn) (stmt : String) (file : DBFile) :
    Except String Unit × DBFile :=
  if isWriteStatement stmt then
    if conn.read_only then
      (.error "attempt to write a readonly database", file)
    else
      (.ok (), stmt :: file)
  else
    (.ok (), file)

/-! ## Verification predicates -/

/-- The loop-invariant rule for one appended step relative to its
predecessor: a step whose (action, action_input) pair equals its
predecessor's carries the injected corrective observation and was not
produced by a tool dispatch. -/
def stepFollowsRule (lastStep : Option ScratchpadStep) (s : ScratchpadStep) :
    Prop :=
  match lastStep with
  | none => True
  | some prev =>
      (prev.action == s.action && prev.action_input == s.action_input) = true →
        s.observation = correctiveObservation ∧ s.executed = false

/-- No two consecutive scratchpad steps carry the same
(action, action_input) pair with the second produced by a real dispatch:
whenever a step repeats its predecessor's pair, its observation is the
injected corrective one and the tool was not executed. -/
def noImmediateRepeat : List ScratchpadStep → Bool
  | [] => true
  | [_] => true
  | a :: b :: rest =>
      ((!(a.action == b.action && a.action_input == b.action_input)) ||
        (b.observation == correctiveObservation && b.executed == false)) &&
      noImmediateRepeat (b :: rest)

/-- The stub model of the spec's step-limit and repeated-action
scenarios: it always produces the same well-formed non-final `QuerySQL`
action. -/
def alwaysQueryModel : List ScratchpadStep → ModelOutput :=
  fun _ => .act "I should query the table" .QuerySQL "SELECT 1"

/-- A stub dispatcher standing in for the tools in the scenarios. -/
def stubDispatch : ActionKind → String → String :=
  fun _ _ => "Rows: [[1]]"

/-- The chat-history invariant: the history is non-empty and its first
element is an assistant-role message. -/
def assistantFirst (history : List Msg) : Prop :=
  ∃ m rest, history = m :: rest ∧ m.role = "assistant"

/-! ## Theorems -/

/-- The step appended by the loop always follows the repeat-detection
rule relative to the previous step. -/
theorem stepFollowsRule_nextStep (dispatch : ActionKind → String → String)
    (sp : List ScratchpadStep) (thought : String) (a : ActionKind)
    (inp : String) :
    stepFollowsRule sp.getLast? (nextStep dispatch sp thought a inp) := by
  cases hlast : sp.getLast? with
  | none => simp [stepFollowsRule]
  | some prev =>
      simp only [stepFollowsRule, nextStep, hlast]
      by_cases hp : (prev.action == a && prev.action_input == inp) = true
      · simp [hp]
      · simp [hp]

/-- Appending a step that follows the repeat-detection rule preserves
`noImmediateRepeat`. -/
theorem noImmediateRepeat_append (sp : List ScratchpadStep)
    (s : ScratchpadStep) (h : noImmediateRepeat sp = true)
    (hs : stepFollowsRule sp.getLast? s) :
    noImmediateRepeat (sp ++ [s]) = true := by
  induction sp with
  | nil => simp [noImmediateRepeat]
  | cons a rest ih =>
      cases rest with
      | nil =>
          simp only [List.getLast?_singleton, stepFollowsRule] at hs
          simp only [List.singleton_append, noImmediateRepeat,
            Bool.and_eq_true, Bool.or_eq_true]
          refine ⟨?_, trivial⟩
          by_cases hp : (a.action == s.action && a.action_input == s.action_input) = true
          · obtain ⟨h1, h2⟩ := hs hp
            right
            simp [h1, h2]
          · left
            simp only [Bool.not_eq_true] at hp
            simp [hp]
      | cons b rest2 =>
          simp only [noImmediateRepeat, Bool.and_eq_true] at h
          rw [List.getLast?_cons_cons] at hs
          simp only [List.cons_append, noImmediateRepeat, Bool.and_eq_true]
          exact ⟨h.1, by simpa using ih h.2 hs⟩

/-- C1: for every SQL string classified as a write operation (keyword
prefix INSERT/UPDATE/DELETE/DROP/ALTER/CREATE, case-insensitive, after
stripping leading whitespace and comments), `execute` returns
`Error("write operations are not permitted")` and the statement never
reaches the database backend, whatever the backend would have done. -/
theorem execute_rejects_writes (backend : BackendBehavior) (rowCap : Nat)
    (sql : String) (h : isWriteStatement sql = true) :
    execute backend rowCap sql =
      { result := .Error "write operations are not permitted"
        backendInvoked := false } := by
  simp [execute, h]

/-- Witness for C1 at the concrete statement
`"  -- cleanup\n DROP TABLE students"` and an arbitrary backend. -/
theorem execute_rejects_writes_witness :
    isWriteStatement "  -- cleanup\n DROP TABLE students" = true ∧
    execute (.ok [["7"]]) 200 "  -- cleanup\n DROP TABLE students" =
      { result := .Error "write operations are not permitted"
        backendInvoked := false } :=
  ⟨by decide,
   execute_rejects_writes (.ok [["7"]]) 200 _ (by decide)⟩

/-- C3: whenever the backend raises an exception on a statement, `execute`
returns it as `ExecutionResult.Error` data rather than propagating a
fault: for a non-write statement the backend's message is returned
verbatim, and in every case the outcome of a raising backend is some
`Error` value (`execute` is a total function, so it never raises to its
caller). -/
theorem execute_catches_backend_exceptions (rowCap : Nat) (sql msg : String) :
    (isWriteStatement sql = false →
      execute (.raises msg) rowCap sql =
        { result := .Error msg, backendInvoked := true }) ∧
    ∃ m, (execute (.raises msg) rowCap sql).result = .Error m := by
  constructor
  · intro h
    simp [execute, h]
  · by_cases h : isWriteStatement sql
    · exact ⟨"write operations are not permitted", by simp [execute, h]⟩
    · exact ⟨msg, by simp [execute, h]⟩

/-- Witness for C3 at a concrete read statement and a concrete backend
syntax error. -/
theorem execute_catches_backend_exceptions_witness :
    execute (.raises "no such table: studnets") 200 "SELECT * FROM studnets" =
      { result := .Error "no such table: studnets", backendInvoked := true } :=
  (execute_catches_backend_exceptions 200 "SELECT * FROM studnets"
    "no such table: studnets").1 (by decide)

/-- C5: every `ExecutionResult.Rows` produced by `execute` holds at most
`rowCap` rows, and its truncation marker is set exactly when the
underlying backend result exceeded the cap. -/
theorem execute_rows_capped (rows : List Row) (rowCap : Nat) (sql : String)
    (rs : List Row) (tr : Bool)
    (h : (execute (.ok rows) rowCap sql).result = .Rows rs tr) :
    rs.length ≤ rowCap ∧ (tr = true ↔ rowCap < rows.length) := by
  by_cases hw : isWriteStatement sql
  · simp [execute, hw] at h
  · simp [execute, hw] at h
    obtain ⟨hrs, htr⟩ := h
    subst hrs
    constructor
    · simp
    · simp [← htr]

/-- Witness for C5: a three-row backend result against a cap of two rows
is truncated to two rows with the marker set. -/
theorem execute_rows_capped_witness :
    (execute (.ok [["1"], ["2"], ["3"]]) 2 "SELECT id FROM t").result =
      .Rows [["1"], ["2"]] true ∧
    ([["1"], ["2"]] : List Row).length ≤ 2 ∧
    (true = true ↔ 2 < ([["1"], ["2"], ["3"]] : List Row).length) :=
  ⟨by decide,
   execute_rows_capped [["1"], ["2"], ["3"]] 2 "SELECT id FROM t"
     [["1"], ["2"]] true (by decide)⟩

/-- The reasoning loop never grows the scratchpad beyond the step
limit. -/
theorem runLoop_length_le (model : List ScratchpadStep → ModelOutput)
    (dispatch : ActionKind → String → String) (step_limit : Nat)
    (user_input : String) :
    ∀ (fuel : Nat) (sp : List ScratchpadStep) (streak : Nat),
      sp.length ≤ step_limit →
      (runLoop model dispatch step_limit user_input fuel sp
          streak).scratchpad.length ≤ step_limit := by
  intro fuel
  induction fuel with
  | zero =>
      intro sp streak h
      simpa [runLoop] using h
  | succ n ih =>
      intro sp streak h
      cases hm : model sp with
      | final thought answer => simpa [runLoop, hm] using h
      | malformed raw =>
          by_cases hb : streak ≥ 1
          · simpa [runLoop, hm, hb] using h
          · simpa [runLoop, hm, hb] using ih sp 1 h
      | act thought a inp =>
          by_cases hl : sp.length ≥ step_limit
          · simpa [runLoop, hm, hl] using h
          · have hlen : (sp ++ [nextStep dispatch sp thought a inp]).length ≤
                step_limit := by
              simp only [List.length_append, List.length_singleton]
              omega
            simpa [runLoop, hm, hl] using
              ih (sp ++ [nextStep dispatch sp thought a inp]) 0 hlen

/-- The reasoning loop preserves the no-immediate-repeat invariant of the
scratchpad. -/
theorem runLoop_noImmediateRepeat (model : List ScratchpadStep → ModelOutput)
    (dispatch : ActionKind → String → String) (step_limit : Nat)
    (user_input : String) :
    ∀ (fuel : Nat) (sp : List ScratchpadStep) (streak : Nat),
      noImmediateRepeat sp = true →
      noImmediateRepeat
        (runLoop model dispatch step_limit user_input fuel sp
          streak).scratchpad = true := by
  intro fuel
  induction fuel with
  | zero =>
      intro sp streak h
      simpa [runLoop] using h
  | succ n ih =>
      intro sp streak h
      cases hm : model sp with
      | final thought answer => simpa [runLoop, hm] using h
      | malformed raw =>
          by_cases hb : streak ≥ 1
          · simpa [runLoop, hm, hb] using h
          · simpa [runLoop, hm, hb] using ih sp 1 h
      | act thought a inp =>
          by_cases hl : sp.length ≥ step_limit
          · simpa [runLoop, hm, hl] using h
          · have hstep : noImmediateRepeat
                (sp ++ [nextStep dispatch sp thought a inp]) = true :=
              noImmediateRepeat_append sp _ h
                (stepFollowsRule_nextStep dispatch sp thought a inp)
            simpa [runLoop, hm, hl] using
              ih (sp ++ [nextStep dispatch sp thought a inp]) 0 hstep

/-- C4: a turn's step count never exceeds its step limit, and in the
spec's scenario — a model producing only well-formed non-final actions
with `step_limit = 15` — the turn terminates with status `Aborted`
carrying reason `StepLimitExceeded`. -/
theorem submit_turn_step_limit :
    (∀ (model : List ScratchpadStep → ModelOutput)
       (dispatch : ActionKind → String → String)
       (step_limit : Nat) (user_input : String),
       (submit_turn (some model) dispatch step_limit
           user_input).scratchpad.length ≤ step_limit) ∧
    (submit_turn (some alwaysQueryModel) stubDispatch 15
        "how many students are there?").status =
      .Aborted .StepLimitExceeded := by
  constructor
  · intro model dispatch step_limit user_input
    exact runLoop_length_le model dispatch step_limit user_input
      (2 * step_limit + 2) [] 0 (by simp)
  · decide

/-- C6: within a turn the controller never re-executes the same
(action, action_input) pair twice in immediate succession — whenever a
step repeats its predecessor's pair, its observation is the injected
corrective text "repeated action; try a different approach" and no tool
dispatch happened — and with the spec's stub model that always repeats
the identical QuerySQL action, the second step is exactly the injected
corrective one while the injected steps still count toward the step cap
(the scratchpad reaches the limit). -/
theorem controller_no_immediate_repeat :
    (∀ (model : List ScratchpadStep → ModelOutput)
       (dispatch : ActionKind → String → String)
       (step_limit : Nat) (user_input : String),
       noImmediateRepeat
         (submit_turn (some model) dispatch step_limit
           user_input).scratchpad = true) ∧
    ((submit_turn (some alwaysQueryModel) stubDispatch 3
        "list the students").scratchpad.map
          (fun s => (s.observation, s.executed)) =
      [("Rows: [[1]]", true),
       (correctiveObservation, false),
       (correctiveObservation, false)] ∧
     (submit_turn (some alwaysQueryModel) stubDispatch 3
        "list the students").scratchpad.length = 3) := by
  refine ⟨?_, by decide, by decide⟩
  intro model dispatch step_limit user_input
  exact runLoop_noImmediateRepeat model dispatch step_limit user_input
    (2 * step_limit + 2) [] 0 rfl

/-- C2: the caller always receives a terminal `AgentTurn` — its status is
one of `Completed`, `Aborted` or `Failed` — and at the host layer the
chat turn handler converts every exception raised while processing a
prompt into the error display, so no fault propagates to the host
unhandled. -/
theorem turn_always_terminal :
    (∀ (model : Option (List ScratchpadStep → ModelOutput))
       (dispatch : ActionKind → String → String)
       (step_limit : Nat) (user_input : String),
       (submit_turn model dispatch step_limit user_input).status =
           .Completed ∨
       (∃ r, (submit_turn model dispatch step_limit user_input).status =
           .Aborted r) ∨
       (∃ m, (submit_turn model dispatch step_limit user_input).status =
           .Failed m)) ∧
    (∀ (history : List Msg) (prompt exc : String),
       (handle_turn history prompt (.error exc)).2 =
         .errorBox
           ("Something went wrong while processing your query: " ++ exc)) := by
  constructor
  · intro model dispatch step_limit user_input
    cases h : (submit_turn model dispatch step_limit user_input).status with
    | Completed => exact Or.inl rfl
    | Aborted r => exact Or.inr (Or.inl ⟨r, rfl⟩)
    | Failed m => exact Or.inr (Or.inr ⟨m, rfl⟩)
  · intro history prompt exc
    rfl

/-- C7: the schema introspector mutates nothing — `list_tables` and
`describe_table` pass the database state through unchanged — and its
output is deterministic and stably ordered: a repeated call on the state
returned by the first call yields the identical output, and the table
names come back in lexical order. -/
theorem introspector_pure_and_stable (db : DBState) (tableName : String) :
    (list_tables db).2 = db ∧
    (describe_table db tableName).2 = db ∧
    (list_tables ((list_tables db).2)).1 = (list_tables db).1 ∧
    (describe_table ((describe_table db tableName).2) tableName).1 =
      (describe_table db tableName).1 ∧
    List.Sorted (· ≤ ·) (list_tables db).1 :=
  ⟨rfl, rfl, rfl, rfl, List.sorted_insertionSort _ _⟩

/-- Scanning for the first `?` in a concatenation whose left part has no
`?` finds the right part. -/
theorem afterFirstQmark_append (l r : List Char) (h : '?' ∉ l) :
    afterFirstQmark (l ++ '?' :: r) = some r := by
  induction l with
  | nil => simp [afterFirstQmark]
  | cons c cs ih =>
      have hc : ¬ c = '?' := fun hc => h (by simp [hc])
      have hcs : '?' ∉ cs := fun hm => h (by simp [hm])
      simp [afterFirstQmark, hc, ih hcs]

/-- The URI built by `build_sqlite_db`'s `_creator` carries the `mode=ro`
flag, for any database path free of the URI-reserved character `?`. -/
theorem uriHasModeRo_sqlite_uri (db_path : String)
    (h : '?' ∉ db_path.toList) :
    uriHasModeRo (sqlite_uri db_path) = true := by
  have htl : (sqlite_uri db_path).toList =
      ("file:".toList ++ db_path.toList) ++ '?' :: "mode=ro".toList := by
    simp only [sqlite_uri, String.toList, String.data_append]
  have hleft : '?' ∉ "file:".toList ++ db_path.toList := by
    intro hm
    rcases List.mem_append.mp hm with hm | hm
    · exact absurd hm (by decide)
    · exact h hm
  rw [uriHasModeRo, htl, afterFirstQmark_append _ _ hleft]
  decide

/-- C8: every connection produced by `build_sqlite_db`'s creator is
opened read-only (`mode=ro`), so no statement issued through it can
change the underlying database file — write statements fail with SQLite's
readonly-database error and leave the file untouched — independently of
any statement filtering in the agent layer. -/
theorem sqlite_connection_read_only (db_path stmt : String) (file : DBFile)
    (h : '?' ∉ db_path.toList) :
    (sqlite_creator db_path).read_only = true ∧
    (sqliteExec (sqlite_creator db_path) stmt file).2 = file ∧
    (isWriteStatement stmt = true →
      (sqliteExec (sqlite_creator db_path) stmt file).1 =
        .error "attempt to write a readonly database") := by
  have hro : (sqlite_creator db_path).read_only = true := by
    simpa [sqlite_creator, sqlite_connect] using uriHasModeRo_sqlite_uri db_path h
  refine ⟨hro, ?_, ?_⟩
  · by_cases hw : isWriteStatement stmt
    · simp [sqliteExec, hw, hro]
    · simp [sqliteExec, hw]
  · intro hw
    simp [sqliteExec, hw, hro]

/-- Witness for C8 at the app's colocated `student.db` path and a
concrete write statement. -/
theorem sqlite_connection_read_only_witness :
    ('?' ∉ "/app/src/student.db".toList) ∧
    (sqlite_creator "/app/src/student.db").read_only = true ∧
    (sqliteExec (sqlite_creator "/app/src/student.db") "DROP TABLE students"
        ["students"]).2 = ["students"] ∧
    (sqliteExec (sqlite_creator "/app/src/student.db") "DROP TABLE students"
        ["students"]).1 = .error "attempt to write a readonly database" := by
  have h : '?' ∉ "/app/src/student.db".toList := by decide
  obtain ⟨h1, h2, h3⟩ :=
    sqlite_connection_read_only "/app/src/student.db" "DROP TABLE students"
      ["students"] h
  exact ⟨h, h1, h2, h3 (by decide)⟩

/-- C9: the chat turn handler appends the user message and then an
assistant reply exactly when `agent.run` returned successfully; on the
exception path the history is left as it was with only the user message
appended, and the last entry of the history is assistant-role iff the run
succeeded. -/
theorem handle_turn_history (history : List Msg) (prompt : String) :
    (∀ exc, (handle_turn history prompt (.error exc)).1 =
        history ++ [⟨"user", prompt⟩]) ∧
    (∀ reply, (handle_turn history prompt (.ok reply)).1 =
        history ++ [⟨"user", prompt⟩, ⟨"assistant", reply⟩]) ∧
    (∀ outcome : Except String String,
      ((handle_turn history prompt outcome).1.getLast?.map Msg.role =
          some "assistant") ↔ ∃ reply, outcome = .ok reply) := by
  refine ⟨fun exc => rfl, fun reply => by simp [handle_turn], ?_⟩
  intro outcome
  cases outcome with
  | ok reply => simp [handle_turn]
  | error exc =>
      simp only [handle_turn, List.getLast?_concat, Option.map_some]
      constructor
      · intro hcontra
        simp at hcontra
      · rintro ⟨reply, hcontra⟩
        cases hcontra

/-- Each chat event preserves the assistant-first invariant of the
history. -/
theorem assistantFirst_chatStep (history : List Msg) (e : ChatEvent)
    (hh : assistantFirst history) : assistantFirst (chatStep history e) := by
  cases e with
  | clear => exact ⟨_, _, rfl, rfl⟩
  | turn prompt outcome =>
      obtain ⟨m, rest, hEq, hrole⟩ := hh
      subst hEq
      cases outcome with
      | ok reply =>
          exact ⟨m, rest ++ [⟨"user", prompt⟩, ⟨"assistant", reply⟩],
            by simp [chatStep, handle_turn], hrole⟩
      | error exc =>
          exact ⟨m, rest ++ [⟨"user", prompt⟩],
            by simp [chatStep, handle_turn], hrole⟩

/-- The assistant-first invariant holds along any event sequence from any
state satisfying it. -/
theorem assistantFirst_foldl (events : List ChatEvent) :
    ∀ history : List Msg, assistantFirst history →
      assistantFirst (events.foldl chatStep history) := by
  induction events with
  | nil => exact fun _ hh => hh
  | cons e rest ih =>
      exact fun history hh => ih _ (assistantFirst_chatStep history e hh)

/-- C10: the chat history is always non-empty with an assistant-role
first element — true after initialization, preserved by every chat turn
(on both the success and the exception path), and restored by the Clear
Conversation action, which resets the history to exactly one assistant
greeting message. -/
theorem chat_history_assistant_first :
    assistantFirst initialHistory ∧
    (∀ events, assistantFirst (chatHistoryAfter events)) ∧
    (∀ events, chatHistoryAfter events ≠ []) ∧
    (∀ history, chatStep history .clear = clearedHistory) ∧
    clearedHistory =
      [⟨"assistant", "History cleared. How can I help you now?"⟩] := by
  have hinit : assistantFirst initialHistory := ⟨_, _, rfl, rfl⟩
  refine ⟨hinit, fun events => assistantFirst_foldl events _ hinit, ?_,
    fun _ => rfl, rfl⟩
  intro events
  obtain ⟨m, rest, hEq, _⟩ := assistantFirst_foldl events _ hinit
  simp [chatHistoryAfter] at hEq ⊢
  simp [hEq]

end SQLTalkAI
